import Mathlib

/-!
Verification of the TCP transport link in
`src/openvpn/transport/tcplink.hpp` (`openvpn::TCPTransport::Link`).

Buffers (`BufferAllocated` / `BufferPtr`) are modelled as `List Nat` of
remaining bytes: `buf->size()` is `List.length`, `buf->advance(n)` is
`List.drop n`, `buf->reset_content()` yields `[]`.  The link's observable
interactions with the Read Handler and the Stats Collector error channel
are recorded as an event trace; the byte/packet counters maintained through
`stats->inc_stat` are fields of the state.  The read handler is a pure
response function `Nat → List Nat → Bool × Bool` taking the call index and
the delivered packet and returning the "continue receiving" boolean of
`tcp_read_handler` together with a flag saying whether the handler invoked
`stop()` on the link during the callback.
-/

namespace TCPLink

/-- A buffer: the bytes remaining to be consumed. -/
abbrev Buffer := List Nat

/-- Error kinds recorded with the Stats Collector (`stats->error(...)`)
along the paths of `tcplink.hpp`. -/
inductive ErrKind where
  | TCP_OVERFLOW
  | NETWORK_SEND_ERROR
  | NETWORK_RECV_ERROR
  | TCP_SIZE_ERROR
deriving DecidableEq, Repr

/-- Observable interactions of the link with its collaborators. -/
inductive Event where
  /-- `stats->error(k)` -/
  | statError (k : ErrKind)
  /-- `read_handler->tcp_error_handler(reason)` -/
  | handlerError (reason : String)
  /-- `read_handler->tcp_eof_handler()` -/
  | handlerEOF
  /-- `read_handler->tcp_read_handler(pkt)` returning `ret` (framed read) -/
  | handlerPacket (pkt : Buffer) (ret : Bool)
  /-- `read_handler->tcp_read_handler(buf)` returning `ret` (raw-mode read) -/
  | handlerRawRead (buf : Buffer) (ret : Bool)
  /-- `read_handler->tcp_write_queue_needs_send()` -/
  | writeQueueDrained
  /-- `queue_send()` initiated an `async_send` -/
  | sendInitiated
  /-- `queue_recv(...)` initiated an `async_receive` -/
  | recvInitiated
deriving DecidableEq, Repr

/-- The optional `TransportMutateStream` hook (`mutate.hpp` interface). -/
structure Mutator where
  pre_send : Buffer → Buffer
  post_recv : Buffer → Buffer

/-- Construction-time parameters of `Link`: the `RAW_MODE_ONLY` template
argument, `send_queue_max_size` (0 to disable), `free_list_max_size`,
the frame-sizing policy's maximum payload size (the `Frame::Context`
capacity the spec's FramingError is measured against), the optional
mutate hook, and the read handler's responses (call index and packet to
(continue-receiving, handler-called-stop)). -/
structure LinkConfig where
  raw_mode_only : Bool
  send_queue_max_size : Nat
  free_list_max_size : Nat
  frame_capacity : Nat
  mutate : Option Mutator
  read_handler : Nat → Buffer → Bool × Bool

/-- Incremental packet parser state.

Modelled from the spec: class `PacketStream` lives in
`openvpn/transport/pktstream.hpp`, which is not under `src/`; the spec
describes it as a resumable parser with two sub-states, "(1) accumulating
the 2-byte length prefix, (2) accumulating `length` payload bytes", with
a big-endian 2-byte length word.  `declared_size = none` is sub-state (1)
with the prefix bytes gathered so far in `data`; `declared_size = some n`
is sub-state (2) with the payload gathered so far in `data`. -/
structure PktStream where
  declared_size : Option Nat
  data : Buffer
deriving DecidableEq, Repr

/-- The `PacketStream` freshly constructed: no prefix byte seen yet. -/
def PktStream.empty : PktStream := ⟨none, []⟩

/-- Consume payload bytes from `input` into sub-state (2) with declared
size `len`, taking no more than the packet still needs; returns the new
parser state and the unconsumed input. -/
def pktTake (len : Nat) (data input : Buffer) : PktStream × Buffer :=
  (⟨some len, data ++ input.take (len - data.length)⟩,
   input.drop (len - data.length))

/-- Outcome of one `PacketStream::put` call: progress, or the spec's
FramingError ("a length prefix indicating a payload larger than the
configured frame capacity"), which the C++ code raises as an exception. -/
inductive PutOutcome where
  | ok (ps : PktStream) (rest : Buffer)
  | tooLong
deriving DecidableEq, Repr

/-- Modelled from the spec: `PacketStream::put` — consume bytes from the
input, first completing the 2-byte big-endian length word (failing with
the FramingError when the declared length exceeds the frame capacity
`cap`), then accumulating at most `length` payload bytes; stops at a
packet boundary so the caller can loop. On success returns the new state
and the unconsumed input. -/
def PktStream.put (ps : PktStream) (cap : Nat) (input : Buffer) :
    PutOutcome :=
  match ps.declared_size with
  | some len =>
    .ok (pktTake len ps.data input).1 (pktTake len ps.data input).2
  | none =>
    match ps.data ++ input with
    | b1 :: b2 :: rest =>
      if cap < 256 * b1 + b2 then .tooLong
      else
        .ok (pktTake (256 * b1 + b2) [] rest).1
          (pktTake (256 * b1 + b2) [] rest).2
    | short => .ok ⟨none, short⟩ []

/-- Well-formed parser states: while accumulating the length word at most
one of its two bytes is pending, and while accumulating a payload strictly
fewer than `length` bytes have arrived.  This holds of the fresh parser
and is preserved by every operation (`reach_pktstream_wf` below), so it
characterises the parser states of real executions. -/
def PktStream.wf (ps : PktStream) : Bool :=
  match ps with
  | ⟨none, data⟩ => data.length ≤ 1
  | ⟨some len, data⟩ => data.length < len

/-- Modelled from the spec: `PacketStream::ready` — true once sub-state (2)
has accumulated exactly `length` bytes. -/
def PktStream.ready (ps : PktStream) : Bool :=
  match ps.declared_size with
  | some len => len ≤ ps.data.length
  | none => false

/-- Modelled from the spec: `PacketStream::get` — return the completed
packet and reset to sub-state (1). -/
def PktStream.get (ps : PktStream) : Buffer × PktStream :=
  (ps.data, PktStream.empty)

/-- Modelled from the spec: `PacketStream::prepend_size` from
`openvpn/transport/pktstream.hpp` — "writes the packet's length as a 2-byte
prefix immediately before its payload", big-endian per the wire format. -/
def prepend_size (b : Buffer) : Buffer :=
  (b.length / 256) % 256 :: b.length % 256 :: b

/-- The mutable state of a `Link`, plus the `inc_stat` counters kept by the
shared `SessionStats` object and the read handler call index. -/
structure LinkState where
  halt : Bool
  raw_mode_read : Bool
  raw_mode_write : Bool
  /-- `queue`: the send queue, front at the head. -/
  queue : List Buffer
  /-- `free_list`: recycled free buffers for the send queue. -/
  free_list : List Buffer
  pktstream : PktStream
  bytes_in : Nat
  packets_in : Nat
  bytes_out : Nat
  packets_out : Nat
  /-- Number of `tcp_read_handler` calls made so far (indexes
  `LinkConfig.read_handler`). -/
  rh_calls : Nat
deriving DecidableEq, Repr

/-- The state after the constructor: `halt` is false, `set_raw_mode(false)`
has run (so the raw flags are true exactly when `RAW_MODE_ONLY`), and all
queues, parser state and counters are empty. -/
def Link.init (cfg : LinkConfig) : LinkState :=
  { halt := false
    raw_mode_read := cfg.raw_mode_only
    raw_mode_write := cfg.raw_mode_only
    queue := []
    free_list := []
    pktstream := PktStream.empty
    bytes_in := 0
    packets_in := 0
    bytes_out := 0
    packets_out := 0
    rh_calls := 0 }

/-- `Link::is_raw_mode_read`. -/
def is_raw_mode_read (cfg : LinkConfig) (s : LinkState) : Bool :=
  cfg.raw_mode_only || s.raw_mode_read

/-- `Link::is_raw_mode_write`. -/
def is_raw_mode_write (cfg : LinkConfig) (s : LinkState) : Bool :=
  cfg.raw_mode_only || s.raw_mode_write

/-- `Link::stop`. -/
def Link.stop (s : LinkState) : LinkState :=
  { s with halt := true }

/-- Apply the mutate hook's `pre_send` when a hook is installed. -/
def applyPreSend (cfg : LinkConfig) (b : Buffer) : Buffer :=
  match cfg.mutate with
  | some m => m.pre_send b
  | none => b

/-- Apply the mutate hook's `post_recv` when a hook is installed. -/
def applyPostRecv (cfg : LinkConfig) (b : Buffer) : Buffer :=
  match cfg.mutate with
  | some m => m.post_recv b
  | none => b

/-- Result of `Link::send`: new state, event trace, and the returned bool. -/
structure SendResult where
  state : LinkState
  events : List Event
  ok : Bool
deriving DecidableEq, Repr

/-- Result of a completion handler (`handle_send` / `handle_recv`) or of
`inject`: new state and event trace. -/
structure StepResult where
  state : LinkState
  events : List Event
deriving DecidableEq, Repr

/-- `Link::send`.  The incoming packet `b` is swapped into a buffer taken
from the front of `free_list` (or a fresh one), framed unless in raw write
mode, passed through `mutate->pre_send` when a hook is installed, and
appended to the queue; a send operation is initiated when it is the only
queued item. -/
def Link.send (cfg : LinkConfig) (s : LinkState) (b : Buffer) : SendResult :=
  if s.halt then ⟨s, [], false⟩
  else if cfg.send_queue_max_size ≠ 0 ∧
          cfg.send_queue_max_size ≤ s.queue.length then
    ⟨Link.stop s,
     [.statError .TCP_OVERFLOW, .handlerError "TCP_OVERFLOW"], false⟩
  else
    -- acquire from the free list (`buf->swap(b)` then fills it with `b`)
    let free_list' := s.free_list.tail
    let framed := if is_raw_mode_write cfg s then b else prepend_size b
    let final := applyPreSend cfg framed
    let queue' := s.queue ++ [final]
    ⟨{ s with queue := queue', free_list := free_list' },
     if queue'.length = 1 then [.sendInitiated] else [], true⟩

/-- `send` over a list of packets, collecting the returned booleans. -/
def Link.sendAll (cfg : LinkConfig) (s : LinkState) :
    List Buffer → LinkState × List Bool
  | [] => (s, [])
  | b :: bs =>
    let r := Link.send cfg s b
    let rest := Link.sendAll cfg r.state bs
    (rest.1, r.ok :: rest.2)

/-- Tail of `Link::handle_send` after a successful completion was applied
to the queue: start the next send operation iff the queue is non-empty,
else notify `tcp_write_queue_needs_send`. -/
def handleSendTail (s : LinkState) : StepResult :=
  if s.queue.isEmpty then ⟨s, [.writeQueueDrained]⟩
  else ⟨s, [.sendInitiated]⟩

/-- `Link::handle_send`, invoked with the asio error flag and
`bytes_sent`.  The code reads `queue.front()` unconditionally: a send
completion presupposes an in-flight front buffer, so the (unreachable)
empty-queue case is left as a no-op here. -/
def Link.handle_send (cfg : LinkConfig) (s : LinkState)
    (error : Bool) (bytes_sent : Nat) : StepResult :=
  if s.halt then ⟨s, []⟩
  else if error then
    ⟨Link.stop s,
     [.statError .NETWORK_SEND_ERROR, .handlerError "NETWORK_SEND_ERROR"]⟩
  else
    let s1 := { s with bytes_out := s.bytes_out + bytes_sent
                       packets_out := s.packets_out + 1 }
    match s1.queue with
    | [] => ⟨s1, []⟩
    | buf :: rest =>
      if bytes_sent = buf.length then
        handleSendTail
          { s1 with
            queue := rest
            free_list :=
              if s1.free_list.length < cfg.free_list_max_size then
                s1.free_list ++ [[]]  -- `reset_content` then `push_back`
              else s1.free_list }
      else if bytes_sent < buf.length then
        handleSendTail { s1 with queue := buf.drop bytes_sent :: rest }
      else
        ⟨Link.stop s1,
         [.statError .TCP_OVERFLOW, .handlerError "TCP_INTERNAL_ERROR"]⟩

/-- Accumulated outcome of the `while (buf.size())` loop of
`Link::put_pktstream`: final parser state, packet-delivery events, the
`requeue` flag, whether some handler call invoked `stop()`, the read
handler call index after the loop, and whether the framer raised its
FramingError (a C++ exception escaping the loop). -/
structure PktLoopResult where
  ps : PktStream
  events : List Event
  requeue : Bool
  stopped : Bool
  calls : Nat
  err : Bool
deriving Repr

/-- The `while (buf.size())` loop of `Link::put_pktstream`, with `k` the
read handler call index, `rq` the running `requeue` value and `sb` the
running handler-called-stop flag.  `fuel` bounds the iteration count;
`input.length + 1` suffices from every well-formed parser state (each
delivering iteration consumes at least the missing length-word byte, and
every other iteration consumes all remaining input). -/
def pktLoop (cfg : LinkConfig) :
    Nat → PktStream → Buffer → Nat → Bool → Bool → PktLoopResult
  | 0, ps, _, k, rq, sb => ⟨ps, [], rq, sb, k, false⟩
  | fuel + 1, ps, input, k, rq, sb =>
    if input.isEmpty then ⟨ps, [], rq, sb, k, false⟩
    else
      match ps.put cfg.frame_capacity input with
      | .tooLong => ⟨ps, [], rq, sb, k, true⟩
      | .ok ps1 rest =>
        if ps1.ready then
          let got := ps1.get
          let resp := cfg.read_handler k got.1
          let r := pktLoop cfg fuel got.2 rest (k + 1) resp.1 (sb || resp.2)
          ⟨r.ps, .handlerPacket got.1 resp.1 :: r.events, r.requeue,
           r.stopped, r.calls, r.err⟩
        else
          pktLoop cfg fuel ps1 rest k rq sb

/-- Result of `Link::put_pktstream`: the state after the call (mutations
made before a framer exception persist), the delivery events, the
returned `requeue` flag, and whether the framer's exception escaped. -/
structure PutPktResult where
  state : LinkState
  events : List Event
  requeue : Bool
  err : Bool
deriving Repr

/-- `Link::put_pktstream`: count the input bytes as one inbound packet,
apply `mutate->post_recv` when a hook is installed, then repeatedly feed
the `PacketStream`, delivering each completed packet to
`tcp_read_handler`; returns the last handler call's continue flag (`true`
when no packet completed).  A FramingError propagates as `err` with the
mutations made so far kept, as a C++ exception would leave them. -/
def Link.put_pktstream (cfg : LinkConfig) (s : LinkState) (input : Buffer) :
    PutPktResult :=
  let s1 := { s with bytes_in := s.bytes_in + input.length
                     packets_in := s.packets_in + 1 }
  let data := applyPostRecv cfg input
  let r := pktLoop cfg (data.length + 1) s1.pktstream data s1.rh_calls
    true false
  ⟨{ s1 with pktstream := r.ps
             rh_calls := r.calls
             halt := s1.halt || r.stopped }, r.events, r.requeue, r.err⟩

/-- `Link::inject`: synthetically feed `src` through `put_pktstream` as if
received, unless `src` is empty or the link is `RAW_MODE_ONLY`.  Note the
code never tests `halt` here, and a framer exception would propagate to
the caller (`err`). -/
def Link.inject (cfg : LinkConfig) (s : LinkState) (src : Buffer) :
    PutPktResult :=
  if src.length ≠ 0 ∧ cfg.raw_mode_only = false then
    Link.put_pktstream cfg s src
  else ⟨s, [], true, false⟩

/-- The completion status reported by asio to `handle_recv`. -/
inductive RecvStatus where
  | ok
  | eof
  | err
deriving DecidableEq, Repr

/-- `Link::handle_recv`, invoked with the completion status and the
`bytes_recvd` bytes now in the inbound slot's buffer (modelled as the byte
list `data`).  In non-raw read mode the bytes go through `put_pktstream`,
whose framer exception is caught here: record `TCP_SIZE_ERROR`, notify
the handler and stop.  In raw mode `mutate->post_recv` is applied and the
raw buffer is handed to `tcp_read_handler`.  A receive is re-armed iff
the link was not halted meanwhile and the (last) handler call returned
true. -/
def Link.handle_recv (cfg : LinkConfig) (s : LinkState)
    (status : RecvStatus) (data : Buffer) : StepResult :=
  if s.halt then ⟨s, []⟩
  else
    match status with
    | .ok =>
      if is_raw_mode_read cfg s = false then
        let r := Link.put_pktstream cfg s data
        if r.err then
          ⟨Link.stop r.state,
           r.events ++
             [.statError .TCP_SIZE_ERROR, .handlerError "TCP_SIZE_ERROR"]⟩
        else if r.state.halt = false ∧ r.requeue = true then
          ⟨r.state, r.events ++ [.recvInitiated]⟩
        else ⟨r.state, r.events⟩
      else
        let d := applyPostRecv cfg data
        let resp := cfg.read_handler s.rh_calls d
        let s1 := { s with rh_calls := s.rh_calls + 1
                           halt := s.halt || resp.2 }
        if s1.halt = false ∧ resp.1 = true then
          ⟨s1, [.handlerRawRead d resp.1, .recvInitiated]⟩
        else ⟨s1, [.handlerRawRead d resp.1]⟩
    | .eof => ⟨s, [.handlerEOF]⟩
    | .err =>
      ⟨Link.stop s,
       [.statError .NETWORK_RECV_ERROR, .handlerError "NETWORK_RECV_ERROR"]⟩

/-- `Link::start`: arm the first receive operation unless halted. -/
def Link.start (s : LinkState) : StepResult :=
  if s.halt then ⟨s, []⟩ else ⟨s, [.recvInitiated]⟩

/-- The packets encoded in a byte stream under the 2-byte big-endian
length framing with payload capacity `cap`: the framing order of
completed packets in one pass that starts at a packet boundary (decoding
stops at an over-capacity length word — the FramingError point). -/
def decodePackets (cap : Nat) : Buffer → List Buffer
  | b1 :: b2 :: rest =>
    if cap < 256 * b1 + b2 then []
    else if 256 * b1 + b2 ≤ rest.length then
      rest.take (256 * b1 + b2) ::
        decodePackets cap (rest.drop (256 * b1 + b2))
    else []
  | _ => []
  termination_by l => l.length
  decreasing_by
    simp only [List.length_drop, List.length_cons]
    omega

/-- Whether a pass over the byte stream starting at a packet boundary
hits an over-capacity length word (the FramingError). -/
def decodeErr (cap : Nat) : Buffer → Bool
  | b1 :: b2 :: rest =>
    if cap < 256 * b1 + b2 then true
    else if 256 * b1 + b2 ≤ rest.length then
      decodeErr cap (rest.drop (256 * b1 + b2))
    else false
  | _ => false
  termination_by l => l.length
  decreasing_by
    simp only [List.length_drop, List.length_cons]
    omega

/-- The parser state left over after a pass over `input` starting at a
packet boundary (at the FramingError point the loop stops with the
just-reset parser). -/
def pktLeftover (cap : Nat) : Buffer → PktStream
  | b1 :: b2 :: rest =>
    if cap < 256 * b1 + b2 then ⟨none, []⟩
    else if 256 * b1 + b2 ≤ rest.length then
      pktLeftover cap (rest.drop (256 * b1 + b2))
    else ⟨some (256 * b1 + b2), rest⟩
  | short => ⟨none, short⟩
  termination_by l => l.length
  decreasing_by
    simp only [List.length_drop, List.length_cons]
    omega

/-- The completed packets of a pass that resumes from an arbitrary parser
state `ps`: a pending payload is first completed from the input, then the
rest of the stream — prefixed by any pending length-word byte — decodes
as from a packet boundary.  This is the framing order of one receive
completion's deliveries. -/
def decodeCont (cap : Nat) : PktStream → Buffer → List Buffer
  | ⟨none, d⟩, input => decodePackets cap (d ++ input)
  | ⟨some len, data⟩, input =>
    if len - data.length ≤ input.length then
      (data ++ input.take (len - data.length)) ::
        decodePackets cap (input.drop (len - data.length))
    else []

/-- Whether a pass resuming from parser state `ps` hits the
FramingError. -/
def decodeContErr (cap : Nat) : PktStream → Buffer → Bool
  | ⟨none, d⟩, input => decodeErr cap (d ++ input)
  | ⟨some len, data⟩, input =>
    if len - data.length ≤ input.length then
      decodeErr cap (input.drop (len - data.length))
    else false

/-- The parser state after a pass resuming from parser state `ps`. -/
def leftoverCont (cap : Nat) : PktStream → Buffer → PktStream
  | ⟨none, d⟩, input =>
    match d ++ input with
    | b1 :: b2 :: rest =>
      if cap < 256 * b1 + b2 then ⟨none, d⟩
      else if 256 * b1 + b2 ≤ rest.length then
        pktLeftover cap (rest.drop (256 * b1 + b2))
      else ⟨some (256 * b1 + b2), rest⟩
    | short => ⟨none, short⟩
  | ⟨some len, data⟩, input =>
    if len - data.length ≤ input.length then
      pktLeftover cap (input.drop (len - data.length))
    else ⟨some len, data ++ input⟩

/-- The `handlerPacket` events produced by delivering `pkts` starting at
read handler call index `k`. -/
def deliveredEvents (cfg : LinkConfig) : Nat → List Buffer → List Event
  | _, [] => []
  | k, p :: ps =>
    .handlerPacket p (cfg.read_handler k p).1 :: deliveredEvents cfg (k + 1) ps

/-- The `requeue` flag after delivering `pkts` starting at call index `k`
with running value `rq`: the continue flag of the last delivery, or `rq`
when nothing was delivered. -/
def finalRequeue (cfg : LinkConfig) : Nat → Bool → List Buffer → Bool
  | _, rq, [] => rq
  | k, _, p :: ps => finalRequeue cfg (k + 1) (cfg.read_handler k p).1 ps

/-- Whether some delivery of `pkts` starting at call index `k` had the
handler invoke `stop()`. -/
def anyStop (cfg : LinkConfig) : Nat → List Buffer → Bool
  | _, [] => false
  | k, p :: ps => (cfg.read_handler k p).2 || anyStop cfg (k + 1) ps

/-! ### Example configurations and states used by concrete witnesses -/

/-- A mutate hook that inverts every bit of every byte. -/
def mutInvert : Mutator :=
  ⟨fun b => b.map (fun x => 255 - x), fun b => b.map (fun x => 255 - x)⟩

/-- Non-raw link, queue bound 2, pool bound 1, frame capacity 1024, no
hook, handler always continues. -/
def cfgBasic : LinkConfig := ⟨false, 2, 1, 1024, none, fun _ _ => (true, false)⟩

/-- Non-raw link with no pool capacity (`free_list_max_size = 0`) and no
queue bound. -/
def cfgNoPool : LinkConfig := ⟨false, 0, 0, 1024, none, fun _ _ => (true, false)⟩

/-- Non-raw link whose handler continues exactly on the second delivery
(call index 1). -/
def cfgSecond : LinkConfig :=
  ⟨false, 0, 4, 1024, none, fun k _ => (decide (k = 1), false)⟩

/-- Non-raw link with the bit-inverting hook installed. -/
def cfgInvert : LinkConfig :=
  ⟨false, 0, 4, 1024, some mutInvert, fun _ _ => (true, false)⟩

/-- A fresh link with one unsent buffer `[97]` queued. -/
def sOneQueued : LinkState := { Link.init cfgNoPool with queue := [[97]] }

/-- A link mid-packet: the framer has seen the length word `0x00 0x05`
and the first two payload bytes `'A' 'B'` of a 5-byte packet (the spec's
two-fragment example), with the handler of `cfgSecond`. -/
def sMidPacket : LinkState :=
  { Link.init cfgSecond with pktstream := ⟨some 5, [65, 66]⟩ }

/-- A stopped link with the bit-inverting hook whose framer is mid-packet:
a 2-byte packet with first payload byte `10` pending. -/
def sHaltedInv : LinkState :=
  { Link.init cfgInvert with halt := true, pktstream := ⟨some 2, [10]⟩ }

/-! ### Helper lemmas -/

/-- `handleSendTail` only emits an event; the state passes through. -/
theorem handleSendTail_state (t : LinkState) :
    (handleSendTail t).state = t := by
  simp only [handleSendTail]
  split <;> rfl

/-- The event emitted by `handleSendTail`. -/
theorem handleSendTail_events (t : LinkState) :
    (handleSendTail t).events =
      (if t.queue = [] then [.writeQueueDrained] else [.sendInitiated]) := by
  simp only [handleSendTail]
  split <;> simp_all [List.isEmpty_iff]

/-- `send` on a halted link is a pure failure with no effects. -/
theorem send_of_halt (cfg : LinkConfig) (s : LinkState) (b : Buffer)
    (hh : s.halt = true) : Link.send cfg s b = ⟨s, [], false⟩ := by
  simp [Link.send, hh]

/-- Once halted, any sequence of `send` calls leaves the state unchanged
and every call returns `false`. -/
theorem sendAll_halted (cfg : LinkConfig) :
    ∀ (bs : List Buffer) (s : LinkState), s.halt = true →
      (Link.sendAll cfg s bs).1 = s ∧
        ∀ x ∈ (Link.sendAll cfg s bs).2, x = false := by
  intro bs
  induction bs with
  | nil => intro s hh; simp [Link.sendAll]
  | cons b bs ih =>
    intro s hh
    have hs := send_of_halt cfg s b hh
    obtain ⟨h1, h2⟩ := ih s hh
    refine ⟨by simp [Link.sendAll, hs, h1], ?_⟩
    intro x hx
    simp only [Link.sendAll, hs, List.mem_cons] at hx
    rcases hx with hx | hx
    · exact hx
    · exact h2 x hx

/-! ### Claims about the send path -/

/-- Claim C1: with nonzero `send_queue_max_size` and a full (or overfull)
queue, `send` on a non-halted link records `TCP_OVERFLOW` with the stats
collector, notifies the read handler of the fatal `"TCP_OVERFLOW"` error,
halts the link, returns `false` without enqueuing the packet, and every
subsequent `send` also returns `false`. -/
theorem send_overflow_halts (cfg : LinkConfig) (s : LinkState) (b : Buffer)
    (hN : cfg.send_queue_max_size ≠ 0)
    (hq : cfg.send_queue_max_size ≤ s.queue.length)
    (hh : s.halt = false) :
    (Link.send cfg s b).ok = false ∧
    (Link.send cfg s b).events =
      [.statError .TCP_OVERFLOW, .handlerError "TCP_OVERFLOW"] ∧
    (Link.send cfg s b).state.halt = true ∧
    (Link.send cfg s b).state.queue = s.queue ∧
    ∀ bs : List Buffer,
      ∀ x ∈ (Link.sendAll cfg (Link.send cfg s b).state bs).2, x = false := by
  have hsend : Link.send cfg s b =
      ⟨Link.stop s,
       [.statError .TCP_OVERFLOW, .handlerError "TCP_OVERFLOW"], false⟩ := by
    simp [Link.send, hh, hN, hq]
  refine ⟨by simp [hsend], by simp [hsend], by simp [hsend, Link.stop],
    by simp [hsend, Link.stop], ?_⟩
  intro bs x hx
  exact (sendAll_halted cfg bs (Link.send cfg s b).state
    (by simp [hsend, Link.stop])).2 x hx

/-- Concrete instance of `send_overflow_halts`: bound 2, two packets
already queued. -/
theorem send_overflow_halts_witness :
    cfgBasic.send_queue_max_size ≠ 0 ∧
    cfgBasic.send_queue_max_size ≤
      ({ Link.init cfgBasic with queue := [[1], [2]] } : LinkState).queue.length ∧
    ({ Link.init cfgBasic with queue := [[1], [2]] } : LinkState).halt = false ∧
    ((Link.send cfgBasic { Link.init cfgBasic with queue := [[1], [2]] } [3]).ok = false ∧
     (Link.send cfgBasic { Link.init cfgBasic with queue := [[1], [2]] } [3]).events =
       [.statError .TCP_OVERFLOW, .handlerError "TCP_OVERFLOW"] ∧
     (Link.send cfgBasic { Link.init cfgBasic with queue := [[1], [2]] } [3]).state.halt = true ∧
     (Link.send cfgBasic { Link.init cfgBasic with queue := [[1], [2]] } [3]).state.queue =
       ({ Link.init cfgBasic with queue := [[1], [2]] } : LinkState).queue ∧
     ∀ bs : List Buffer,
       ∀ x ∈ (Link.sendAll cfgBasic
         (Link.send cfgBasic { Link.init cfgBasic with queue := [[1], [2]] } [3]).state bs).2,
         x = false) :=
  ⟨by decide, by decide, by decide,
   send_overflow_halts cfgBasic _ [3] (by decide) (by decide) (by decide)⟩

/-- Claim C3: `send` on a halted link returns failure, leaves the whole
state (hence the queue) unchanged, and produces no read handler or stats
collector interaction. -/
theorem send_halted_noop (cfg : LinkConfig) (s : LinkState) (b : Buffer)
    (hh : s.halt = true) : Link.send cfg s b = ⟨s, [], false⟩ := by
  simp [Link.send, hh]

/-- Concrete instance of `send_halted_noop`. -/
theorem send_halted_noop_witness :
    sHaltedInv.halt = true ∧
    Link.send cfgInvert sHaltedInv [7] = ⟨sHaltedInv, [], false⟩ :=
  ⟨rfl, send_halted_noop cfgInvert sHaltedInv [7] rfl⟩

/-- Claim C4: a packet accepted by `send` in non-raw write mode is framed
first (2-byte big-endian length word in front of the payload) and the
installed hook's `pre_send` is then applied to the framed bytes, before
the buffer is appended to the queue. -/
theorem send_frames_before_hook (cfg : LinkConfig) (s : LinkState)
    (b : Buffer) (m : Mutator)
    (hh : s.halt = false)
    (hq : cfg.send_queue_max_size = 0 ∨
          s.queue.length < cfg.send_queue_max_size)
    (hraw : is_raw_mode_write cfg s = false)
    (hm : cfg.mutate = some m) :
    (Link.send cfg s b).ok = true ∧
    (Link.send cfg s b).state.queue =
      s.queue ++ [m.pre_send (prepend_size b)] ∧
    prepend_size b = (b.length / 256) % 256 :: b.length % 256 :: b := by
  have hg : ¬(cfg.send_queue_max_size ≠ 0 ∧
      cfg.send_queue_max_size ≤ s.queue.length) := by
    rcases hq with h | h <;> omega
  refine ⟨?_, ?_, rfl⟩ <;>
    simp [Link.send, hh, hg, hraw, applyPreSend, hm]

/-- Concrete instance of `send_frames_before_hook`: the inverting hook
observes the already-framed bytes of packet `"X"`. -/
theorem send_frames_before_hook_witness :
    (Link.init cfgInvert).halt = false ∧
    (cfgInvert.send_queue_max_size = 0 ∨
     (Link.init cfgInvert).queue.length < cfgInvert.send_queue_max_size) ∧
    is_raw_mode_write cfgInvert (Link.init cfgInvert) = false ∧
    cfgInvert.mutate = some mutInvert ∧
    ((Link.send cfgInvert (Link.init cfgInvert) [88]).ok = true ∧
     (Link.send cfgInvert (Link.init cfgInvert) [88]).state.queue =
       (Link.init cfgInvert).queue ++ [mutInvert.pre_send (prepend_size [88])] ∧
     prepend_size [88] =
       (([88] : Buffer).length / 256) % 256 :: ([88] : Buffer).length % 256 :: [88]) :=
  ⟨rfl, Or.inl rfl, rfl, rfl,
   send_frames_before_hook cfgInvert (Link.init cfgInvert) [88] mutInvert
     rfl (Or.inl rfl) rfl rfl⟩

/-- Claim C5: a send completion on a non-halted link reporting more bytes
than the front buffer holds records `TCP_OVERFLOW` with the stats
collector, notifies the handler with `"TCP_INTERNAL_ERROR"` (distinct from
the `"NETWORK_SEND_ERROR"` reason of an ordinary failed send), halts the
link, and initiates no further send operation. -/
theorem handle_send_over_report (cfg : LinkConfig) (s : LinkState)
    (buf : Buffer) (rest : List Buffer) (n : Nat)
    (hh : s.halt = false) (hq : s.queue = buf :: rest)
    (hgt : buf.length < n) :
    (Link.handle_send cfg s false n).events =
      [.statError .TCP_OVERFLOW, .handlerError "TCP_INTERNAL_ERROR"] ∧
    (Link.handle_send cfg s false n).state.halt = true ∧
    Event.sendInitiated ∉ (Link.handle_send cfg s false n).events ∧
    (Link.handle_send cfg s true n).events =
      [.statError .NETWORK_SEND_ERROR, .handlerError "NETWORK_SEND_ERROR"] ∧
    ("TCP_INTERNAL_ERROR" : String) ≠ "NETWORK_SEND_ERROR" := by
  have h1 : ¬(n = buf.length) := by omega
  have h2 : ¬(n < buf.length) := by omega
  refine ⟨?_, ?_, ?_, ?_, by decide⟩ <;>
    simp [Link.handle_send, hh, hq, h1, h2, Link.stop]

/-- Concrete instance of `handle_send_over_report`: one byte queued, two
bytes reported sent. -/
theorem handle_send_over_report_witness :
    sOneQueued.halt = false ∧ sOneQueued.queue = [97] :: [] ∧
    ([97] : Buffer).length < 2 ∧
    ((Link.handle_send cfgNoPool sOneQueued false 2).events =
       [.statError .TCP_OVERFLOW, .handlerError "TCP_INTERNAL_ERROR"] ∧
     (Link.handle_send cfgNoPool sOneQueued false 2).state.halt = true ∧
     Event.sendInitiated ∉ (Link.handle_send cfgNoPool sOneQueued false 2).events ∧
     (Link.handle_send cfgNoPool sOneQueued true 2).events =
       [.statError .NETWORK_SEND_ERROR, .handlerError "NETWORK_SEND_ERROR"] ∧
     ("TCP_INTERNAL_ERROR" : String) ≠ "NETWORK_SEND_ERROR") :=
  ⟨rfl, rfl, by decide,
   handle_send_over_report cfgNoPool sOneQueued [97] [] 2 rfl rfl (by decide)⟩

/-- Claim C6: a receive completion reporting a clean end-of-stream on a
non-halted link invokes only the EOF callback and leaves the state — in
particular the halt flag — untouched; no error callback, no stats error. -/
theorem handle_recv_eof (cfg : LinkConfig) (s : LinkState) (data : Buffer)
    (hh : s.halt = false) :
    Link.handle_recv cfg s .eof data = ⟨s, [.handlerEOF]⟩ := by
  simp [Link.handle_recv, hh]

/-- Concrete instance of `handle_recv_eof`. -/
theorem handle_recv_eof_witness :
    (Link.init cfgBasic).halt = false ∧
    Link.handle_recv cfgBasic (Link.init cfgBasic) .eof [] =
      ⟨Link.init cfgBasic, [.handlerEOF]⟩ :=
  ⟨rfl, handle_recv_eof cfgBasic (Link.init cfgBasic) [] rfl⟩

/-- Claim C10: the overflow path of `send` and the more-bytes-than-offered
path of `handle_send` record the same stats error kind `TCP_OVERFLOW`;
they differ only in the reason string passed to `tcp_error_handler`. -/
theorem overflow_and_internal_same_stat (cfg : LinkConfig)
    (s s2 : LinkState) (b buf : Buffer) (rest : List Buffer) (n : Nat)
    (hh : s.halt = false) (hN : cfg.send_queue_max_size ≠ 0)
    (hq : cfg.send_queue_max_size ≤ s.queue.length)
    (hh2 : s2.halt = false) (hq2 : s2.queue = buf :: rest)
    (hgt : buf.length < n) :
    (Link.send cfg s b).events =
      [.statError .TCP_OVERFLOW, .handlerError "TCP_OVERFLOW"] ∧
    (Link.handle_send cfg s2 false n).events =
      [.statError .TCP_OVERFLOW, .handlerError "TCP_INTERNAL_ERROR"] ∧
    ("TCP_OVERFLOW" : String) ≠ "TCP_INTERNAL_ERROR" := by
  have h1 : ¬(n = buf.length) := by omega
  have h2 : ¬(n < buf.length) := by omega
  refine ⟨?_, ?_, by decide⟩ <;>
    simp [Link.send, Link.handle_send, hh, hN, hq, hh2, hq2, h1, h2]

/-- Concrete instance of `overflow_and_internal_same_stat`. -/
theorem overflow_and_internal_same_stat_witness :
    ({ Link.init cfgBasic with queue := [[1], [2]] } : LinkState).halt = false ∧
    cfgBasic.send_queue_max_size ≠ 0 ∧
    sOneQueued.halt = false ∧
    ((Link.send cfgBasic { Link.init cfgBasic with queue := [[1], [2]] } [3]).events =
       [.statError .TCP_OVERFLOW, .handlerError "TCP_OVERFLOW"] ∧
     (Link.handle_send cfgBasic sOneQueued false 2).events =
       [.statError .TCP_OVERFLOW, .handlerError "TCP_INTERNAL_ERROR"] ∧
     ("TCP_OVERFLOW" : String) ≠ "TCP_INTERNAL_ERROR") :=
  ⟨by decide, by decide, rfl,
   overflow_and_internal_same_stat cfgBasic
     { Link.init cfgBasic with queue := [[1], [2]] } sOneQueued [3] [97] [] 2
     (by decide) (by decide) (by decide) rfl rfl (by decide)⟩

/-- Claim C2 counterexample: with `free_list_max_size = 0` a fully-sent
buffer is popped but NOT returned to the Buffer Pool — the pool is still
empty afterwards — refuting the unconditional "returned to the Buffer
Pool" for this completion. -/
theorem handle_send_pool_full_discards :
    sOneQueued.halt = false ∧
    sOneQueued.queue = [[97]] ∧
    (Link.handle_send cfgNoPool sOneQueued false 1).state.queue = [] ∧
    (Link.handle_send cfgNoPool sOneQueued false 1).state.free_list = [] := by
  decide

/-- Claim C2 (amended): on a successful send completion on a non-halted
link, the byte/packet-out counters are updated; if the reported count `n`
equals the front buffer's remaining length the buffer is popped and a
reset (zero-length) buffer is returned to the pool exactly when the pool
is below `free_list_max_size` (otherwise it is discarded); if `n` is less,
the front buffer's read cursor advances by `n` and it stays at the front;
afterwards a send is initiated iff the queue is non-empty, else the
write-queue-drained notification fires. -/
theorem handle_send_success (cfg : LinkConfig) (s : LinkState)
    (buf : Buffer) (rest : List Buffer) (n : Nat)
    (hh : s.halt = false) (hq : s.queue = buf :: rest)
    (hle : n ≤ buf.length) :
    (Link.handle_send cfg s false n).state.bytes_out = s.bytes_out + n ∧
    (Link.handle_send cfg s false n).state.packets_out = s.packets_out + 1 ∧
    (n = buf.length →
      (Link.handle_send cfg s false n).state.queue = rest ∧
      (Link.handle_send cfg s false n).state.free_list =
        (if s.free_list.length < cfg.free_list_max_size
         then s.free_list ++ [[]] else s.free_list)) ∧
    (n < buf.length →
      (Link.handle_send cfg s false n).state.queue = buf.drop n :: rest ∧
      (Link.handle_send cfg s false n).state.free_list = s.free_list) ∧
    (Link.handle_send cfg s false n).events =
      (if (Link.handle_send cfg s false n).state.queue = []
       then [.writeQueueDrained] else [.sendInitiated]) := by
  rcases Nat.lt_or_ge n buf.length with hlt | hge
  · have hne : ¬(n = buf.length) := by omega
    have hstep : Link.handle_send cfg s false n =
        handleSendTail
          { s with bytes_out := s.bytes_out + n
                   packets_out := s.packets_out + 1
                   queue := buf.drop n :: rest } := by
      simp [Link.handle_send, hh, hq, hne, hlt]
    refine ⟨?_, ?_, fun h => absurd h hne, fun _ => ⟨?_, ?_⟩, ?_⟩ <;>
      simp [hstep, handleSendTail_state, handleSendTail_events]
  · have heq : n = buf.length := by omega
    subst heq
    have hstep : Link.handle_send cfg s false buf.length =
        handleSendTail
          { s with bytes_out := s.bytes_out + buf.length
                   packets_out := s.packets_out + 1
                   queue := rest
                   free_list :=
                     if s.free_list.length < cfg.free_list_max_size
                     then s.free_list ++ [[]] else s.free_list } := by
      simp [Link.handle_send, hh, hq]
    refine ⟨?_, ?_, fun _ => ⟨?_, ?_⟩, fun h => absurd h (by omega), ?_⟩ <;>
      simp [hstep, handleSendTail_state, handleSendTail_events]

/-- Concrete instance of `handle_send_success`: a 3-byte framed buffer
fully sent, pool below its bound, queue drains. -/
theorem handle_send_success_witness :
    ((Link.send cfgBasic (Link.init cfgBasic) [88]).state.halt = false ∧
     (Link.send cfgBasic (Link.init cfgBasic) [88]).state.queue = [[0, 1, 88]] ∧
     3 ≤ ([0, 1, 88] : Buffer).length) ∧
    ((Link.handle_send cfgBasic (Link.send cfgBasic (Link.init cfgBasic) [88]).state false 3).state.bytes_out =
       (Link.send cfgBasic (Link.init cfgBasic) [88]).state.bytes_out + 3 ∧
     (Link.handle_send cfgBasic (Link.send cfgBasic (Link.init cfgBasic) [88]).state false 3).state.packets_out =
       (Link.send cfgBasic (Link.init cfgBasic) [88]).state.packets_out + 1 ∧
     (3 = ([0, 1, 88] : Buffer).length →
       (Link.handle_send cfgBasic (Link.send cfgBasic (Link.init cfgBasic) [88]).state false 3).state.queue = [] ∧
       (Link.handle_send cfgBasic (Link.send cfgBasic (Link.init cfgBasic) [88]).state false 3).state.free_list =
         (if (Link.send cfgBasic (Link.init cfgBasic) [88]).state.free_list.length <
             cfgBasic.free_list_max_size
          then (Link.send cfgBasic (Link.init cfgBasic) [88]).state.free_list ++ [[]]
          else (Link.send cfgBasic (Link.init cfgBasic) [88]).state.free_list)) ∧
     (3 < ([0, 1, 88] : Buffer).length →
       (Link.handle_send cfgBasic (Link.send cfgBasic (Link.init cfgBasic) [88]).state false 3).state.queue =
         ([0, 1, 88] : Buffer).drop 3 :: [] ∧
       (Link.handle_send cfgBasic (Link.send cfgBasic (Link.init cfgBasic) [88]).state false 3).state.free_list =
         (Link.send cfgBasic (Link.init cfgBasic) [88]).state.free_list) ∧
     (Link.handle_send cfgBasic (Link.send cfgBasic (Link.init cfgBasic) [88]).state false 3).events =
       (if (Link.handle_send cfgBasic (Link.send cfgBasic (Link.init cfgBasic) [88]).state false 3).state.queue = []
        then [.writeQueueDrained] else [.sendInitiated])) :=
  ⟨⟨by decide, by decide, by decide⟩,
   handle_send_success cfgBasic _ [0, 1, 88] [] 3 (by decide) (by decide)
     (by decide)⟩

/-! ### Reachability by send operations and send completions (claim C8) -/

/-- `send` leaves the free list alone or pops its front. -/
theorem send_free_list (cfg : LinkConfig) (s : LinkState) (b : Buffer) :
    (Link.send cfg s b).state.free_list = s.free_list ∨
    (Link.send cfg s b).state.free_list = s.free_list.tail := by
  by_cases hh : s.halt = true
  · left
    simp [Link.send, hh]
  · replace hh : s.halt = false := by simpa using hh
    by_cases hov : cfg.send_queue_max_size ≠ 0 ∧
        cfg.send_queue_max_size ≤ s.queue.length
    · left
      simp [Link.send, hh, hov, Link.stop]
    · right
      simp [Link.send, hh, hov]

/-- `handle_send` leaves the free list alone or, when the pool is below
its bound, appends one reset buffer. -/
theorem handle_send_free_list (cfg : LinkConfig) (s : LinkState)
    (e : Bool) (n : Nat) :
    (Link.handle_send cfg s e n).state.free_list = s.free_list ∨
    ((Link.handle_send cfg s e n).state.free_list = s.free_list ++ [[]] ∧
      s.free_list.length < cfg.free_list_max_size) := by
  by_cases hh : s.halt = true
  · left
    simp [Link.handle_send, hh]
  · replace hh : s.halt = false := by simpa using hh
    by_cases he : e = true
    · left
      simp [Link.handle_send, hh, he, Link.stop]
    · replace he : e = false := by simpa using he
      subst he
      rcases hq : s.queue with _ | ⟨buf, rest⟩
      · left
        simp [Link.handle_send, hh, hq]
      · by_cases heq : n = buf.length
        · by_cases hcap : s.free_list.length < cfg.free_list_max_size
          · right
            refine ⟨?_, hcap⟩
            simp [Link.handle_send, hh, hq, heq, hcap, handleSendTail_state]
          · left
            simp [Link.handle_send, hh, hq, heq, hcap, handleSendTail_state]
        · by_cases hlt : n < buf.length
          · left
            simp [Link.handle_send, hh, hq, heq, hlt, handleSendTail_state]
          · left
            simp [Link.handle_send, hh, hq, heq, hlt, Link.stop]

/-- States reachable from a freshly constructed link by any interleaving
of `send` calls and send completions. -/
inductive SendReach (cfg : LinkConfig) : LinkState → Prop
  | init : SendReach cfg (Link.init cfg)
  | send : ∀ s b, SendReach cfg s → SendReach cfg (Link.send cfg s b).state
  | complete : ∀ s e n, SendReach cfg s →
      SendReach cfg (Link.handle_send cfg s e n).state

/-- Claim C8: along any sequence of `send` operations and send
completions, the free list never holds more than `free_list_max_size`
buffers, and every buffer in it has been reset to zero length. -/
theorem free_list_invariant (cfg : LinkConfig) (s : LinkState)
    (h : SendReach cfg s) :
    s.free_list.length ≤ cfg.free_list_max_size ∧
      ∀ b ∈ s.free_list, b = [] := by
  induction h with
  | init => simp [Link.init]
  | send s b _ ih =>
    obtain ⟨ihl, ihm⟩ := ih
    rcases send_free_list cfg s b with hf | hf <;> rw [hf]
    · exact ⟨ihl, ihm⟩
    · refine ⟨le_trans ?_ ihl, fun x hx => ihm x (List.mem_of_mem_tail hx)⟩
      rw [List.length_tail]
      omega
  | complete s e n _ ih =>
    obtain ⟨ihl, ihm⟩ := ih
    rcases handle_send_free_list cfg s e n with hf | ⟨hf, hcap⟩ <;> rw [hf]
    · exact ⟨ihl, ihm⟩
    · refine ⟨?_, ?_⟩
      · simp only [List.length_append, List.length_singleton]
        omega
      · intro x hx
        rcases List.mem_append.mp hx with hx | hx
        · exact ihm x hx
        · simpa using hx

/-- Concrete instance of `free_list_invariant` after a full
send/complete round trip. -/
theorem free_list_invariant_witness :
    SendReach cfgBasic
      (Link.handle_send cfgBasic
        (Link.send cfgBasic (Link.init cfgBasic) [88]).state false 3).state ∧
    ((Link.handle_send cfgBasic
        (Link.send cfgBasic (Link.init cfgBasic) [88]).state false 3).state.free_list.length ≤
      cfgBasic.free_list_max_size ∧
     ∀ b ∈ (Link.handle_send cfgBasic
        (Link.send cfgBasic (Link.init cfgBasic) [88]).state false 3).state.free_list,
       b = []) :=
  ⟨SendReach.complete _ false 3 (SendReach.send _ [88] SendReach.init),
   free_list_invariant cfgBasic _
     (SendReach.complete _ false 3 (SendReach.send _ [88] SendReach.init))⟩

/-! ### The packet-delivery loop computes the framing decomposition -/

/-- The loop does nothing on empty input. -/
theorem pktLoop_nil (cfg : LinkConfig) (fuel : Nat) (ps : PktStream)
    (k : Nat) (rq sb : Bool) :
    pktLoop cfg fuel ps [] k rq sb = ⟨ps, [], rq, sb, k, false⟩ := by
  cases fuel <;> simp [pktLoop]

/-- `decodePackets` on empty input. -/
theorem decodePackets_nil (cap : Nat) : decodePackets cap [] = [] := by
  rw [decodePackets]
  simp

/-- `decodePackets` on a single byte (incomplete length word). -/
theorem decodePackets_single (cap b1 : Nat) : decodePackets cap [b1] = [] := by
  rw [decodePackets]
  simp

/-- One unfolding of `decodePackets` past the length word. -/
theorem decodePackets_cons (cap b1 b2 : Nat) (rest : Buffer) :
    decodePackets cap (b1 :: b2 :: rest) =
      (if cap < 256 * b1 + b2 then []
       else if 256 * b1 + b2 ≤ rest.length then
         rest.take (256 * b1 + b2) ::
           decodePackets cap (rest.drop (256 * b1 + b2))
       else []) := by
  rw [decodePackets]

/-- `decodeErr` on empty input. -/
theorem decodeErr_nil (cap : Nat) : decodeErr cap [] = false := by
  rw [decodeErr]
  simp

/-- `decodeErr` on a single byte. -/
theorem decodeErr_single (cap b1 : Nat) : decodeErr cap [b1] = false := by
  rw [decodeErr]
  simp

/-- One unfolding of `decodeErr` past the length word. -/
theorem decodeErr_cons (cap b1 b2 : Nat) (rest : Buffer) :
    decodeErr cap (b1 :: b2 :: rest) =
      (if cap < 256 * b1 + b2 then true
       else if 256 * b1 + b2 ≤ rest.length then
         decodeErr cap (rest.drop (256 * b1 + b2))
       else false) := by
  rw [decodeErr]

/-- `pktLeftover` on empty input. -/
theorem pktLeftover_nil (cap : Nat) : pktLeftover cap [] = ⟨none, []⟩ := by
  rw [pktLeftover]
  simp

/-- `pktLeftover` on a single byte. -/
theorem pktLeftover_single (cap b1 : Nat) :
    pktLeftover cap [b1] = ⟨none, [b1]⟩ := by
  rw [pktLeftover]
  simp

/-- One unfolding of `pktLeftover` past the length word. -/
theorem pktLeftover_cons (cap b1 b2 : Nat) (rest : Buffer) :
    pktLeftover cap (b1 :: b2 :: rest) =
      (if cap < 256 * b1 + b2 then ⟨none, []⟩
       else if 256 * b1 + b2 ≤ rest.length then
         pktLeftover cap (rest.drop (256 * b1 + b2))
       else ⟨some (256 * b1 + b2), rest⟩) := by
  rw [pktLeftover]

/-- Starting at a packet boundary, the `put_pktstream` loop delivers
exactly the framing decomposition of the input, in order, threading the
handler's continue flag so that the last delivery's flag is returned, and
raises the FramingError exactly when the stream declares an over-capacity
packet. -/
theorem pktLoop_decode (cfg : LinkConfig) :
    ∀ (fuel : Nat) (input : Buffer) (k : Nat) (rq sb : Bool),
      input.length < fuel →
      pktLoop cfg fuel ⟨none, []⟩ input k rq sb =
        ⟨pktLeftover cfg.frame_capacity input,
         deliveredEvents cfg k (decodePackets cfg.frame_capacity input),
         finalRequeue cfg k rq (decodePackets cfg.frame_capacity input),
         sb || anyStop cfg k (decodePackets cfg.frame_capacity input),
         k + (decodePackets cfg.frame_capacity input).length,
         decodeErr cfg.frame_capacity input⟩ := by
  intro fuel
  induction fuel with
  | zero =>
    intro input k rq sb h
    omega
  | succ fuel ih =>
    intro input k rq sb h
    rcases input with _ | ⟨b1, input⟩
    · rw [pktLeftover_nil, decodePackets_nil, decodeErr_nil]
      simp [pktLoop, deliveredEvents, finalRequeue, anyStop]
    rcases input with _ | ⟨b2, rest⟩
    · rw [pktLeftover_single, decodePackets_single, decodeErr_single]
      simp [pktLoop, pktLoop_nil, PktStream.put, PktStream.ready,
        deliveredEvents, finalRequeue, anyStop]
    rw [pktLeftover_cons, decodePackets_cons, decodeErr_cons]
    by_cases hover : cfg.frame_capacity < 256 * b1 + b2
    · have hput : (⟨none, []⟩ : PktStream).put cfg.frame_capacity
          (b1 :: b2 :: rest) = .tooLong := by
        simp [PktStream.put, hover]
      simp [pktLoop, hput, hover, deliveredEvents, finalRequeue, anyStop]
    rcases Nat.lt_or_ge rest.length (256 * b1 + b2) with hgt | hle
    · have hput : (⟨none, []⟩ : PktStream).put cfg.frame_capacity
          (b1 :: b2 :: rest) = .ok ⟨some (256 * b1 + b2), rest⟩ [] := by
        simp [PktStream.put, pktTake, hover,
          List.take_of_length_le (Nat.le_of_lt hgt),
          List.drop_eq_nil_of_le (Nat.le_of_lt hgt)]
      have hready :
          (⟨some (256 * b1 + b2), rest⟩ : PktStream).ready = false := by
        simp [PktStream.ready]
        omega
      have hgt' : ¬(256 * b1 + b2 ≤ rest.length) := by omega
      simp [pktLoop, hput, hready, hover, hgt', pktLoop_nil,
        deliveredEvents, finalRequeue, anyStop]
    · have hdrop : (rest.drop (256 * b1 + b2)).length < fuel := by
        simp only [List.length_cons] at h
        simp only [List.length_drop]
        omega
      have hput : (⟨none, []⟩ : PktStream).put cfg.frame_capacity
          (b1 :: b2 :: rest) =
          .ok ⟨some (256 * b1 + b2), rest.take (256 * b1 + b2)⟩
            (rest.drop (256 * b1 + b2)) := by
        simp [PktStream.put, pktTake, hover]
      have hready :
          (⟨some (256 * b1 + b2),
            rest.take (256 * b1 + b2)⟩ : PktStream).ready = true := by
        simp [PktStream.ready, List.length_take]
        omega
      simp only [pktLoop, List.isEmpty_cons, hput, hready, PktStream.get,
        PktStream.empty, if_true, Bool.false_eq_true, if_false]
      rw [ih _ _ _ _ hdrop]
      simp [hover, hle, deliveredEvents, finalRequeue, anyStop,
        Bool.or_assoc]
      omega

/-- `leftoverCont` from the boundary state is `pktLeftover`. -/
theorem leftoverCont_empty (cap : Nat) (input : Buffer) :
    leftoverCont cap ⟨none, []⟩ input = pktLeftover cap input := by
  rcases input with _ | ⟨b1, _ | ⟨b2, rest⟩⟩
  · rw [pktLeftover_nil]
    simp [leftoverCont]
  · rw [pktLeftover_single]
    simp [leftoverCont]
  · rw [pktLeftover_cons]
    simp [leftoverCont]


/-- One loop iteration that hits the FramingError. -/
theorem pktLoop_step_err (cfg : LinkConfig) (fuel : Nat) (ps : PktStream)
    (input : Buffer) (k : Nat) (rq sb : Bool)
    (hne : input.isEmpty = false)
    (hput : ps.put cfg.frame_capacity input = .tooLong) :
    pktLoop cfg (fuel + 1) ps input k rq sb = ⟨ps, [], rq, sb, k, true⟩ := by
  simp [pktLoop, hne, hput]

/-- One loop iteration that makes progress without completing a packet. -/
theorem pktLoop_step_stay (cfg : LinkConfig) (fuel : Nat) (ps : PktStream)
    (input : Buffer) (ps1 : PktStream) (rest : Buffer) (k : Nat)
    (rq sb : Bool) (hne : input.isEmpty = false)
    (hput : ps.put cfg.frame_capacity input = .ok ps1 rest)
    (hready : ps1.ready = false) :
    pktLoop cfg (fuel + 1) ps input k rq sb =
      pktLoop cfg fuel ps1 rest k rq sb := by
  simp [pktLoop, hne, hput, hready]

/-- One loop iteration that completes and delivers a packet. -/
theorem pktLoop_step_deliver (cfg : LinkConfig) (fuel : Nat)
    (ps : PktStream) (input : Buffer) (ps1 : PktStream) (rest : Buffer)
    (k : Nat) (rq sb : Bool) (hne : input.isEmpty = false)
    (hput : ps.put cfg.frame_capacity input = .ok ps1 rest)
    (hready : ps1.ready = true) :
    pktLoop cfg (fuel + 1) ps input k rq sb =
      ⟨(pktLoop cfg fuel ⟨none, []⟩ rest (k + 1)
          (cfg.read_handler k ps1.data).1
          (sb || (cfg.read_handler k ps1.data).2)).ps,
       .handlerPacket ps1.data (cfg.read_handler k ps1.data).1 ::
         (pktLoop cfg fuel ⟨none, []⟩ rest (k + 1)
           (cfg.read_handler k ps1.data).1
           (sb || (cfg.read_handler k ps1.data).2)).events,
       (pktLoop cfg fuel ⟨none, []⟩ rest (k + 1)
         (cfg.read_handler k ps1.data).1
         (sb || (cfg.read_handler k ps1.data).2)).requeue,
       (pktLoop cfg fuel ⟨none, []⟩ rest (k + 1)
         (cfg.read_handler k ps1.data).1
         (sb || (cfg.read_handler k ps1.data).2)).stopped,
       (pktLoop cfg fuel ⟨none, []⟩ rest (k + 1)
         (cfg.read_handler k ps1.data).1
         (sb || (cfg.read_handler k ps1.data).2)).calls,
       (pktLoop cfg fuel ⟨none, []⟩ rest (k + 1)
         (cfg.read_handler k ps1.data).1
         (sb || (cfg.read_handler k ps1.data).2)).err⟩ := by
  simp [pktLoop, hne, hput, hready, PktStream.get, PktStream.empty]

/-- Resuming from any well-formed parser state, the `put_pktstream` loop
delivers exactly the continuation framing decomposition `decodeCont` of
the input, in order, threads the continue flag so the last delivery's
flag is returned, and raises the FramingError exactly per
`decodeContErr`. -/
theorem pktLoop_cont (cfg : LinkConfig) (ps : PktStream) (input : Buffer)
    (k : Nat) (rq sb : Bool) (hwf : ps.wf = true) :
    pktLoop cfg (input.length + 1) ps input k rq sb =
      ⟨leftoverCont cfg.frame_capacity ps input,
       deliveredEvents cfg k (decodeCont cfg.frame_capacity ps input),
       finalRequeue cfg k rq (decodeCont cfg.frame_capacity ps input),
       sb || anyStop cfg k (decodeCont cfg.frame_capacity ps input),
       k + (decodeCont cfg.frame_capacity ps input).length,
       decodeContErr cfg.frame_capacity ps input⟩ := by
  obtain ⟨sz, d⟩ := ps
  rcases sz with _ | len
  · have hd1 : d.length ≤ 1 := by simpa [PktStream.wf] using hwf
    rcases d with _ | ⟨d0, d'⟩
    · rw [pktLoop_decode cfg _ _ _ _ _ (Nat.lt_succ_self _),
        leftoverCont_empty]
      simp [decodeCont, decodeContErr]
    · have hd' : d' = [] := by
        simp only [List.length_cons] at hd1
        exact List.length_eq_zero.mp (by omega)
      subst hd'
      rcases input with _ | ⟨i0, input'⟩
      · rw [pktLoop_nil]
        simp [decodeCont, decodeContErr, leftoverCont,
          decodePackets_single, decodeErr_single, deliveredEvents,
          finalRequeue, anyStop]
      by_cases hover : cfg.frame_capacity < 256 * d0 + i0
      · have hput : (⟨none, [d0]⟩ : PktStream).put cfg.frame_capacity
            (i0 :: input') = .tooLong := by
          simp [PktStream.put, hover]
        rw [pktLoop_step_err cfg _ _ _ _ _ _ (by simp) hput]
        simp [decodeCont, decodeContErr, leftoverCont, decodePackets_cons,
          decodeErr_cons, hover, deliveredEvents, finalRequeue, anyStop]
      rcases Nat.lt_or_ge input'.length (256 * d0 + i0) with hgt | hle
      · have hput : (⟨none, [d0]⟩ : PktStream).put cfg.frame_capacity
            (i0 :: input') = .ok ⟨some (256 * d0 + i0), input'⟩ [] := by
          simp [PktStream.put, pktTake, hover,
            List.take_of_length_le (Nat.le_of_lt hgt),
            List.drop_eq_nil_of_le (Nat.le_of_lt hgt)]
        have hready :
            (⟨some (256 * d0 + i0), input'⟩ : PktStream).ready = false := by
          simp [PktStream.ready]
          omega
        have hgt' : ¬(256 * d0 + i0 ≤ input'.length) := by omega
        rw [pktLoop_step_stay cfg _ _ _ _ _ _ _ _ (by simp) hput hready,
          pktLoop_nil]
        simp [decodeCont, decodeContErr, leftoverCont, decodePackets_cons,
          decodeErr_cons, hover, hgt', deliveredEvents, finalRequeue,
          anyStop]
      · have hput : (⟨none, [d0]⟩ : PktStream).put cfg.frame_capacity
            (i0 :: input') =
            .ok ⟨some (256 * d0 + i0), input'.take (256 * d0 + i0)⟩
              (input'.drop (256 * d0 + i0)) := by
          simp [PktStream.put, pktTake, hover]
        have hready :
            (⟨some (256 * d0 + i0),
              input'.take (256 * d0 + i0)⟩ : PktStream).ready = true := by
          simp [PktStream.ready, List.length_take]
          omega
        rw [pktLoop_step_deliver cfg _ _ _ _ _ _ _ _ (by simp) hput hready,
          pktLoop_decode cfg _ _ _ _ _
            (by simp only [List.length_drop, List.length_cons]; omega)]
        simp [decodeCont, decodeContErr, leftoverCont, decodePackets_cons,
          decodeErr_cons, hover, hle, deliveredEvents, finalRequeue,
          anyStop, Bool.or_assoc]
        omega
  · have hlt : d.length < len := by simpa [PktStream.wf] using hwf
    rcases input with _ | ⟨i0, input'⟩
    · rw [pktLoop_nil]
      have hc : ¬(len - d.length = 0) := by omega
      simp [decodeCont, decodeContErr, leftoverCont, hc, deliveredEvents,
        finalRequeue, anyStop]
    by_cases hneed : len - d.length ≤ (i0 :: input').length
    · have hput : (⟨some len, d⟩ : PktStream).put cfg.frame_capacity
          (i0 :: input') =
          .ok ⟨some len, d ++ (i0 :: input').take (len - d.length)⟩
            ((i0 :: input').drop (len - d.length)) := by
        simp [PktStream.put, pktTake]
      have hready :
          (⟨some len, d ++ (i0 :: input').take (len - d.length)⟩ :
            PktStream).ready = true := by
        simp only [List.length_cons] at hneed
        simp [PktStream.ready, List.length_take, List.length_cons]
        omega
      have hdrop3 :
          ((i0 :: input').drop (len - d.length)).length <
            (i0 :: input').length := by
        simp only [List.length_drop, List.length_cons]
        omega
      have hneed' : len ≤ input'.length + 1 + d.length := by
        simp only [List.length_cons] at hneed
        omega
      rw [pktLoop_step_deliver cfg _ _ _ _ _ _ _ _ (by simp) hput hready,
        pktLoop_decode cfg _ _ _ _ _ hdrop3]
      simp [decodeCont, decodeContErr, leftoverCont, hneed, hneed',
        deliveredEvents, finalRequeue, anyStop, Bool.or_assoc]
      omega
    · have htake : (i0 :: input').take (len - d.length) = i0 :: input' :=
        List.take_of_length_le (by omega)
      have hdrop2 : (i0 :: input').drop (len - d.length) = [] :=
        List.drop_eq_nil_of_le (by omega)
      have hput : (⟨some len, d⟩ : PktStream).put cfg.frame_capacity
          (i0 :: input') = .ok ⟨some len, d ++ i0 :: input'⟩ [] := by
        simp [PktStream.put, pktTake, htake, hdrop2]
      have hready :
          (⟨some len, d ++ i0 :: input'⟩ : PktStream).ready = false := by
        simp only [List.length_cons] at hneed
        simp [PktStream.ready, List.length_append, List.length_cons]
        omega
      have hneed' : ¬(len ≤ input'.length + 1 + d.length) := by
        simp only [List.length_cons] at hneed
        omega
      rw [pktLoop_step_stay cfg _ _ _ _ _ _ _ _ (by simp) hput hready,
        pktLoop_nil]
      simp [decodeCont, decodeContErr, leftoverCont, hneed, hneed',
        deliveredEvents, finalRequeue, anyStop]

/-- `put_pktstream` from any well-formed parser state: counters bumped,
`post_recv` applied, the continuation framing decomposition delivered,
the last delivery's continue flag returned, the FramingError surfaced. -/
theorem put_pktstream_cont (cfg : LinkConfig) (s : LinkState)
    (input : Buffer) (hwf : s.pktstream.wf = true) :
    Link.put_pktstream cfg s input =
      ⟨{ s with
           bytes_in := s.bytes_in + input.length
           packets_in := s.packets_in + 1
           pktstream :=
             leftoverCont cfg.frame_capacity s.pktstream
               (applyPostRecv cfg input)
           rh_calls := s.rh_calls +
             (decodeCont cfg.frame_capacity s.pktstream
               (applyPostRecv cfg input)).length
           halt := s.halt ||
             anyStop cfg s.rh_calls
               (decodeCont cfg.frame_capacity s.pktstream
                 (applyPostRecv cfg input)) },
       deliveredEvents cfg s.rh_calls
         (decodeCont cfg.frame_capacity s.pktstream (applyPostRecv cfg input)),
       finalRequeue cfg s.rh_calls true
         (decodeCont cfg.frame_capacity s.pktstream (applyPostRecv cfg input)),
       decodeContErr cfg.frame_capacity s.pktstream
         (applyPostRecv cfg input)⟩ := by
  simp only [Link.put_pktstream]
  rw [pktLoop_cont cfg _ _ _ _ _ hwf]
  simp

/-- The continue flag after a non-empty delivery pass is the last
packet's handler response. -/
theorem finalRequeue_append (cfg : LinkConfig) :
    ∀ (ps : List Buffer) (k : Nat) (rq : Bool) (p : Buffer),
      finalRequeue cfg k rq (ps ++ [p]) =
        (cfg.read_handler (k + ps.length) p).1 := by
  intro ps
  induction ps with
  | nil =>
    intro k rq p
    simp [finalRequeue]
  | cons q qs ih =>
    intro k rq p
    have harith : k + 1 + qs.length = k + (qs.length + 1) := by omega
    simp only [List.cons_append, finalRequeue, List.length_cons,
      List.append_eq]
    rw [ih, harith]

/-- Delivery passes never themselves arm a receive operation. -/
theorem recvInitiated_not_mem_delivered (cfg : LinkConfig) (k : Nat)
    (pkts : List Buffer) :
    Event.recvInitiated ∉ deliveredEvents cfg k pkts := by
  induction pkts generalizing k with
  | nil => simp [deliveredEvents]
  | cons p ps ih =>
    simp only [deliveredEvents, List.mem_cons]
    rintro (h | h)
    · exact Event.noConfusion h
    · exact ih (k + 1) h

/-- `handle_recv` on success in non-raw mode, from any well-formed parser
state: deliver the continuation framing decomposition; on a FramingError
record `TCP_SIZE_ERROR`, notify the handler and halt; otherwise re-arm a
receive exactly when no handler call halted the link and the last
continue flag is true. -/
theorem handle_recv_ok_nonraw (cfg : LinkConfig) (s : LinkState)
    (input : Buffer) (hh : s.halt = false)
    (hraw : is_raw_mode_read cfg s = false)
    (hwf : s.pktstream.wf = true) :
    Link.handle_recv cfg s .ok input =
      ⟨{ s with
           bytes_in := s.bytes_in + input.length
           packets_in := s.packets_in + 1
           pktstream :=
             leftoverCont cfg.frame_capacity s.pktstream
               (applyPostRecv cfg input)
           rh_calls := s.rh_calls +
             (decodeCont cfg.frame_capacity s.pktstream
               (applyPostRecv cfg input)).length
           halt :=
             (anyStop cfg s.rh_calls
                (decodeCont cfg.frame_capacity s.pktstream
                  (applyPostRecv cfg input)) ||
              decodeContErr cfg.frame_capacity s.pktstream
                (applyPostRecv cfg input)) },
       deliveredEvents cfg s.rh_calls
         (decodeCont cfg.frame_capacity s.pktstream (applyPostRecv cfg input)) ++
         (if decodeContErr cfg.frame_capacity s.pktstream
              (applyPostRecv cfg input) = true
          then [.statError .TCP_SIZE_ERROR, .handlerError "TCP_SIZE_ERROR"]
          else if anyStop cfg s.rh_calls
                   (decodeCont cfg.frame_capacity s.pktstream
                     (applyPostRecv cfg input)) = false ∧
                 finalRequeue cfg s.rh_calls true
                   (decodeCont cfg.frame_capacity s.pktstream
                     (applyPostRecv cfg input)) = true
               then [.recvInitiated] else [])⟩ := by
  simp only [Link.handle_recv, hh, hraw, Bool.false_eq_true, if_false,
    put_pktstream_cont cfg s input hwf]
  by_cases hE : decodeContErr cfg.frame_capacity s.pktstream
      (applyPostRecv cfg input) = true
  · simp [hE, Link.stop, hh]
  · simp only [Bool.not_eq_true] at hE
    by_cases hc : anyStop cfg s.rh_calls
        (decodeCont cfg.frame_capacity s.pktstream
          (applyPostRecv cfg input)) = false ∧
        finalRequeue cfg s.rh_calls true
          (decodeCont cfg.frame_capacity s.pktstream
            (applyPostRecv cfg input)) = true
    · simp [hE, hc]
    · simp only [hE, Bool.false_or, Bool.false_eq_true, if_false] at hc ⊢
      simp [hc]

/-! ### Well-formedness of the parser state is an invariant -/

/-- A successful `put` that has not completed a packet leaves the parser
well-formed. -/
theorem put_ok_not_ready_wf (ps : PktStream) (cap : Nat) (input : Buffer)
    (ps1 : PktStream) (rest : Buffer)
    (hok : ps.put cap input = .ok ps1 rest)
    (hnr : ps1.ready = false) : ps1.wf = true := by
  obtain ⟨sz, d⟩ := ps
  rcases sz with _ | len
  · rcases hall : (⟨none, d⟩ : PktStream).data ++ input with
        _ | ⟨b1, _ | ⟨b2, rest'⟩⟩
    · simp only [PktStream.put, hall] at hok
      obtain ⟨h1, _⟩ := PutOutcome.ok.inj hok
      subst h1
      rfl
    · simp only [PktStream.put, hall] at hok
      obtain ⟨h1, _⟩ := PutOutcome.ok.inj hok
      subst h1
      rfl
    · simp only [PktStream.put, hall] at hok
      by_cases hover : cap < 256 * b1 + b2
      · simp [hover] at hok
      · simp only [hover, if_false] at hok
        obtain ⟨h1, _⟩ := PutOutcome.ok.inj hok
        subst h1
        simp only [pktTake, PktStream.ready] at hnr ⊢
        simp only [PktStream.wf]
        simp at hnr ⊢
        omega
  · simp only [PktStream.put] at hok
    obtain ⟨h1, _⟩ := PutOutcome.ok.inj hok
    subst h1
    simp only [pktTake, PktStream.ready] at hnr ⊢
    simp only [PktStream.wf]
    simp at hnr ⊢
    omega

/-- The delivery loop leaves the parser well-formed whenever it entered
well-formed. -/
theorem pktLoop_wf (cfg : LinkConfig) :
    ∀ (fuel : Nat) (ps : PktStream) (input : Buffer) (k : Nat)
      (rq sb : Bool), ps.wf = true →
      (pktLoop cfg fuel ps input k rq sb).ps.wf = true := by
  intro fuel
  induction fuel with
  | zero =>
    intro ps input k rq sb hwf
    simpa [pktLoop] using hwf
  | succ fuel ih =>
    intro ps input k rq sb hwf
    by_cases hemp : input.isEmpty
    · simpa [pktLoop, hemp] using hwf
    · rcases hput : ps.put cfg.frame_capacity input with ⟨ps1, rest⟩ | _
      · by_cases hr : ps1.ready = true
        · rw [pktLoop_step_deliver cfg fuel ps input ps1 rest k rq sb
            (by simpa using hemp) hput hr]
          exact ih _ _ _ _ _ rfl
        · rw [pktLoop_step_stay cfg fuel ps input ps1 rest k rq sb
            (by simpa using hemp) hput (by simpa using hr)]
          exact ih _ _ _ _ _
            (put_ok_not_ready_wf ps _ input ps1 rest hput (by simpa using hr))
      · rw [pktLoop_step_err cfg fuel ps input k rq sb
          (by simpa using hemp) hput]
        exact hwf

/-- `send` does not touch the parser. -/
theorem send_pktstream (cfg : LinkConfig) (s : LinkState) (b : Buffer) :
    (Link.send cfg s b).state.pktstream = s.pktstream := by
  by_cases hh : s.halt = true
  · simp [Link.send, hh]
  · replace hh : s.halt = false := by simpa using hh
    by_cases hov : cfg.send_queue_max_size ≠ 0 ∧
        cfg.send_queue_max_size ≤ s.queue.length
    · simp [Link.send, hh, hov, Link.stop]
    · simp [Link.send, hh, hov]

/-- `handle_send` does not touch the parser. -/
theorem handle_send_pktstream (cfg : LinkConfig) (s : LinkState)
    (e : Bool) (n : Nat) :
    (Link.handle_send cfg s e n).state.pktstream = s.pktstream := by
  by_cases hh : s.halt = true
  · simp [Link.handle_send, hh]
  · replace hh : s.halt = false := by simpa using hh
    by_cases he : e = true
    · simp [Link.handle_send, hh, he, Link.stop]
    · replace he : e = false := by simpa using he
      subst he
      rcases hq : s.queue with _ | ⟨buf, rest⟩
      · simp [Link.handle_send, hh, hq]
      · by_cases heq : n = buf.length
        · simp [Link.handle_send, hh, hq, heq, handleSendTail_state]
        · by_cases hlt : n < buf.length
          · simp [Link.handle_send, hh, hq, heq, hlt, handleSendTail_state]
          · simp [Link.handle_send, hh, hq, heq, hlt, Link.stop]

/-- `put_pktstream` leaves the parser well-formed. -/
theorem put_pktstream_wf (cfg : LinkConfig) (s : LinkState)
    (input : Buffer) (hwf : s.pktstream.wf = true) :
    (Link.put_pktstream cfg s input).state.pktstream.wf = true := by
  simp only [Link.put_pktstream]
  exact pktLoop_wf cfg _ _ _ _ _ _ hwf

/-- `handle_recv` leaves the parser well-formed. -/
theorem handle_recv_pktstream_wf (cfg : LinkConfig) (s : LinkState)
    (status : RecvStatus) (data : Buffer)
    (hwf : s.pktstream.wf = true) :
    (Link.handle_recv cfg s status data).state.pktstream.wf = true := by
  by_cases hh : s.halt = true
  · simpa [Link.handle_recv, hh] using hwf
  · replace hh : s.halt = false := by simpa using hh
    rcases status with _ | _ | _
    · simp only [Link.handle_recv, hh, Bool.false_eq_true, if_false]
      split
      · split
        · simpa [Link.stop] using put_pktstream_wf cfg s data hwf
        · split
          · simpa using put_pktstream_wf cfg s data hwf
          · simpa using put_pktstream_wf cfg s data hwf
      · split
        · simpa using hwf
        · simpa using hwf
    · simpa [Link.handle_recv, hh] using hwf
    · simpa [Link.handle_recv, hh, Link.stop] using hwf

/-- `inject` leaves the parser well-formed. -/
theorem inject_pktstream_wf (cfg : LinkConfig) (s : LinkState)
    (src : Buffer) (hwf : s.pktstream.wf = true) :
    (Link.inject cfg s src).state.pktstream.wf = true := by
  simp only [Link.inject]
  split
  · exact put_pktstream_wf cfg s src hwf
  · simpa using hwf

/-- States reachable from a freshly constructed link by any interleaving
of the link's operations and completion handlers. -/
inductive Reach (cfg : LinkConfig) : LinkState → Prop
  | init : Reach cfg (Link.init cfg)
  | send : ∀ s b, Reach cfg s → Reach cfg (Link.send cfg s b).state
  | complete : ∀ s e n, Reach cfg s →
      Reach cfg (Link.handle_send cfg s e n).state
  | recv : ∀ s status data, Reach cfg s →
      Reach cfg (Link.handle_recv cfg s status data).state
  | inj : ∀ s src, Reach cfg s → Reach cfg (Link.inject cfg s src).state
  | stop : ∀ s, Reach cfg s → Reach cfg (Link.stop s)

/-- Every reachable link state has a well-formed parser, so the
`PktStream.wf` hypothesis of the receive-path theorems covers every
receive completion of a real execution. -/
theorem reach_pktstream_wf (cfg : LinkConfig) (s : LinkState)
    (h : Reach cfg s) : s.pktstream.wf = true := by
  induction h with
  | init => rfl
  | send s b _ ih =>
    rw [send_pktstream]
    exact ih
  | complete s e n _ ih =>
    rw [handle_send_pktstream]
    exact ih
  | recv s status data _ ih => exact handle_recv_pktstream_wf cfg s status data ih
  | inj s src _ ih => exact inject_pktstream_wf cfg s src ih
  | stop s _ ih => exact ih

/-- Claim C7: when a receive completion in non-raw read mode (from any
well-formed parser state, i.e. any reachable one — `reach_pktstream_wf`)
yields the completed packets `ps ++ [p]`, every packet is delivered to
the read handler in framing order, and a new receive operation is armed
iff the continue flag returned for the last packet `p` is true and the
link is not halted (neither by a handler's `stop()` nor by the
FramingError path). -/
theorem handle_recv_delivers_last_signal (cfg : LinkConfig) (s : LinkState)
    (input : Buffer) (ps : List Buffer) (p : Buffer)
    (hh : s.halt = false)
    (hraw : is_raw_mode_read cfg s = false)
    (hwf : s.pktstream.wf = true)
    (hd : decodeCont cfg.frame_capacity s.pktstream (applyPostRecv cfg input) =
      ps ++ [p]) :
    (Link.handle_recv cfg s .ok input).events =
      deliveredEvents cfg s.rh_calls (ps ++ [p]) ++
        (if decodeContErr cfg.frame_capacity s.pktstream
             (applyPostRecv cfg input) = true
         then [.statError .TCP_SIZE_ERROR, .handlerError "TCP_SIZE_ERROR"]
         else if anyStop cfg s.rh_calls (ps ++ [p]) = false ∧
                (cfg.read_handler (s.rh_calls + ps.length) p).1 = true
              then [.recvInitiated] else []) ∧
    (Link.handle_recv cfg s .ok input).state.halt =
      (anyStop cfg s.rh_calls (ps ++ [p]) ||
        decodeContErr cfg.frame_capacity s.pktstream (applyPostRecv cfg input)) ∧
    (Event.recvInitiated ∈ (Link.handle_recv cfg s .ok input).events ↔
      ((cfg.read_handler (s.rh_calls + ps.length) p).1 = true ∧
       (Link.handle_recv cfg s .ok input).state.halt = false)) := by
  have hr := handle_recv_ok_nonraw cfg s input hh hraw hwf
  rw [hd, finalRequeue_append] at hr
  refine ⟨by rw [hr], by rw [hr], ?_⟩
  rw [hr]
  by_cases hE : decodeContErr cfg.frame_capacity s.pktstream
      (applyPostRecv cfg input) = true
  · simp [hE, recvInitiated_not_mem_delivered]
  · replace hE : decodeContErr cfg.frame_capacity s.pktstream
        (applyPostRecv cfg input) = false := by simpa using hE
    by_cases hstop : anyStop cfg s.rh_calls (ps ++ [p]) = false
    · by_cases hsig : (cfg.read_handler (s.rh_calls + ps.length) p).1 = true
      · simp [hE, hstop, hsig]
      · simp [hE, hstop, hsig, recvInitiated_not_mem_delivered]
    · replace hstop : anyStop cfg s.rh_calls (ps ++ [p]) = true := by
        simpa using hstop
      simp [hE, hstop, recvInitiated_not_mem_delivered]

/-- Concrete instance of `handle_recv_delivers_last_signal`, resuming the
spec's two-fragment packet: the parser already holds `0x00 0x05 'A' 'B'`
of a 5-byte packet; the completion supplies `'C' 'D' 'E'` plus a framed
1-byte packet `[70]`.  Both packets are delivered in order; the handler
continues only on the last (call index 1), so a receive is re-armed. -/
theorem handle_recv_delivers_last_signal_witness :
    (sMidPacket.halt = false ∧
     is_raw_mode_read cfgSecond sMidPacket = false ∧
     sMidPacket.pktstream.wf = true ∧
     decodeCont cfgSecond.frame_capacity sMidPacket.pktstream
       (applyPostRecv cfgSecond [67, 68, 69, 0, 1, 70]) =
       [[65, 66, 67, 68, 69]] ++ [[70]]) ∧
    ((Link.handle_recv cfgSecond sMidPacket .ok [67, 68, 69, 0, 1, 70]).events =
      deliveredEvents cfgSecond sMidPacket.rh_calls
          ([[65, 66, 67, 68, 69]] ++ [[70]]) ++
        (if decodeContErr cfgSecond.frame_capacity sMidPacket.pktstream
             (applyPostRecv cfgSecond [67, 68, 69, 0, 1, 70]) = true
         then [.statError .TCP_SIZE_ERROR, .handlerError "TCP_SIZE_ERROR"]
         else if anyStop cfgSecond sMidPacket.rh_calls
                  ([[65, 66, 67, 68, 69]] ++ [[70]]) = false ∧
                (cfgSecond.read_handler
                  (sMidPacket.rh_calls + [[65, 66, 67, 68, 69]].length) [70]).1 =
                  true
              then [.recvInitiated] else []) ∧
     (Link.handle_recv cfgSecond sMidPacket .ok
        [67, 68, 69, 0, 1, 70]).state.halt =
       (anyStop cfgSecond sMidPacket.rh_calls
          ([[65, 66, 67, 68, 69]] ++ [[70]]) ||
        decodeContErr cfgSecond.frame_capacity sMidPacket.pktstream
          (applyPostRecv cfgSecond [67, 68, 69, 0, 1, 70])) ∧
     (Event.recvInitiated ∈
        (Link.handle_recv cfgSecond sMidPacket .ok
          [67, 68, 69, 0, 1, 70]).events ↔
       ((cfgSecond.read_handler
           (sMidPacket.rh_calls + [[65, 66, 67, 68, 69]].length) [70]).1 =
           true ∧
        (Link.handle_recv cfgSecond sMidPacket .ok
          [67, 68, 69, 0, 1, 70]).state.halt = false))) :=
  ⟨⟨rfl, rfl, rfl,
    by simp [sMidPacket, Link.init, cfgSecond, applyPostRecv, decodeCont,
      decodePackets]⟩,
   handle_recv_delivers_last_signal cfgSecond sMidPacket
     [67, 68, 69, 0, 1, 70] [[65, 66, 67, 68, 69]] [70] rfl rfl rfl
     (by simp [sMidPacket, Link.init, cfgSecond, applyPostRecv, decodeCont,
       decodePackets])⟩

/-- Claim C9: `inject` with non-empty bytes on a non-raw-only link does
not test the halt flag — on a halted link (with any well-formed parser
state, in particular one mid-packet) it still applies `post_recv`, feeds
the framer, bumps the byte/packet-in counters, and delivers the completed
packets to the read handler. -/
theorem inject_ignores_halt (cfg : LinkConfig) (s : LinkState)
    (src : Buffer) (hh : s.halt = true) (hne : src.length ≠ 0)
    (hro : cfg.raw_mode_only = false)
    (hwf : s.pktstream.wf = true) :
    (Link.inject cfg s src).state.bytes_in = s.bytes_in + src.length ∧
    (Link.inject cfg s src).state.packets_in = s.packets_in + 1 ∧
    (Link.inject cfg s src).events =
      deliveredEvents cfg s.rh_calls
        (decodeCont cfg.frame_capacity s.pktstream (applyPostRecv cfg src)) := by
  simp only [Link.inject, hne, hro, and_self, ne_eq, not_false_iff, if_true,
    put_pktstream_cont cfg s src hwf]

/-- Concrete instance of `inject_ignores_halt`: a stopped link with the
bit-inverting hook, its framer one byte short of a 2-byte packet;
injecting `[254]` (which `post_recv` inverts to `[1]`) completes and
delivers the packet `[10, 1]` and bumps the counters. -/
theorem inject_ignores_halt_witness :
    (sHaltedInv.halt = true ∧ ([254] : Buffer).length ≠ 0 ∧
     cfgInvert.raw_mode_only = false ∧ sHaltedInv.pktstream.wf = true) ∧
    ((Link.inject cfgInvert sHaltedInv [254]).state.bytes_in =
       sHaltedInv.bytes_in + ([254] : Buffer).length ∧
     (Link.inject cfgInvert sHaltedInv [254]).state.packets_in =
       sHaltedInv.packets_in + 1 ∧
     (Link.inject cfgInvert sHaltedInv [254]).events =
       deliveredEvents cfgInvert sHaltedInv.rh_calls
         (decodeCont cfgInvert.frame_capacity sHaltedInv.pktstream
           (applyPostRecv cfgInvert [254]))) :=
  ⟨⟨rfl, by decide, rfl, rfl⟩,
   inject_ignores_halt cfgInvert sHaltedInv [254] rfl (by decide) rfl rfl⟩

end TCPLink
